import Mathlib

/-!
Verification of the Stalwart SMTP server core against its design
specification.  The Rust sources are shallowly embedded: pure functions
become Lean functions, machine integers become `Nat` with explicit
wrap-around where overflow matters, fallible code returns `Option` or
`Except`, and external collaborators (crypto hashes, DNS, channels,
random shuffles, clocks) are passed in as explicit function parameters.
Each definition carries a reference to the Rust item it embeds.
-/

set_option linter.unusedVariables false
set_option linter.unnecessarySimpa false

namespace SMTPSpec

/-! ## Queue data model (src/queue/mod.rs) -/

/-- Embeds `enum Status<T, E>` from src/queue/mod.rs (lines 91-97). -/
inductive Status (T E : Type) where
  | Scheduled : Status T E
  | Completed : T → Status T E
  | TemporaryFailure : E → Status T E
  | PermanentFailure : E → Status T E
deriving DecidableEq, Repr

/-- Embeds `struct ErrorDetails` from src/queue/mod.rs (lines 118-122). -/
structure ErrorDetails where
  entity : String
  details : String
deriving DecidableEq, Repr

/-- Embeds `enum Error` from src/queue/mod.rs (lines 105-116).  The
`UnexpectedResponse` payload is omitted-irrelevant fields are kept as the
carried `ErrorDetails`/`String` data used by the claims. -/
inductive Error where
  | DnsError : String → Error
  | UnexpectedResponse : ErrorDetails → Error
  | ConnectionError : ErrorDetails → Error
  | TlsError : ErrorDetails → Error
  | DaneError : ErrorDetails → Error
  | MtaStsError : String → Error
  | RateLimited : Error
  | ConcurrencyLimited : Error
  | Io : String → Error
deriving DecidableEq, Repr

/-- Embeds `struct Schedule<T>` from src/queue/mod.rs (lines 40-44).
`Instant` is represented as a `Nat` tick count; `Instant` ordering in Rust
is the numeric order of the tick count. -/
structure Schedule (T : Type) where
  due : Nat
  inner : T
deriving DecidableEq, Repr

/-- Embeds `impl<T> Ord for Schedule<T>` from src/queue/mod.rs
(lines 153-157): `other.due.cmp(&self.due)`. -/
def Schedule.cmp {T : Type} (self other : Schedule T) : Ordering :=
  compare other.due self.due

/-- Embeds `impl<T> PartialEq for Schedule<T>` from src/queue/mod.rs
(lines 165-169): equality compares only the due instants. -/
def Schedule.beq {T : Type} (self other : Schedule T) : Bool :=
  self.due == other.due

/-- Modelled from the spec: `ConcurrencyLimiter` lives in
src/core/throttle.rs which is not part of the provided sources.  The spec
describes it as an integer counter with a max; only its identity matters
to the claims below (it is pushed onto an on-hold list). -/
structure ConcurrencyLimiter where
  max_concurrent : Nat
  concurrent : Nat
deriving DecidableEq, Repr

/-- Embeds `enum Error` from src/queue/throttle.rs (lines 38-42), the
throttle error carried from `QueueCore::is_allowed` to
`Domain::set_throttle_error`. -/
inductive ThrottleError where
  | Concurrency : ConcurrencyLimiter → ThrottleError
  | Rate : (retry_at : Nat) → ThrottleError
deriving DecidableEq, Repr

/-- Embeds `struct Domain` from src/queue/mod.rs (lines 68-76). -/
structure Domain where
  domain : String
  retry : Schedule Nat
  notify : Schedule Nat
  expires : Nat
  status : Status Unit Error
  changed : Bool
deriving DecidableEq, Repr

/-- Embeds `Domain::set_throttle_error` from src/queue/throttle.rs
(lines 112-125).  The Rust method mutates the domain and pushes onto the
caller-supplied `on_hold` vector; here both are returned.  The method
writes no SMTP response: its only outputs are the updated domain and the
on-hold list. -/
def Domain.set_throttle_error (self : Domain) (err : ThrottleError)
    (on_hold : List ConcurrencyLimiter) : Domain × List ConcurrencyLimiter :=
  match err with
  | ThrottleError.Concurrency limiter =>
      ({ self with
          status := Status.TemporaryFailure Error.ConcurrencyLimited,
          changed := true },
        on_hold ++ [limiter])
  | ThrottleError.Rate retry_at =>
      ({ self with
          retry := { self.retry with due := retry_at },
          status := Status.TemporaryFailure Error.RateLimited,
          changed := true },
        on_hold)

/-! ## Configuration value parsing (src/config/utils.rs) -/

/-- Rust `str::trim` (whitespace at both ends).  The configuration values
exercised here are ASCII; the ASCII whitespace characters are handled. -/
def rustIsWhitespace (c : Char) : Bool :=
  c = ' ' || c = '\t' || c = '\n' || c = '\r' || c = '\x0b' || c = '\x0c'

def rustTrim (s : String) : String :=
  ((s.toList.dropWhile rustIsWhitespace).reverse.dropWhile
    rustIsWhitespace).reverse.asString

/-- Rust `str::to_ascii_uppercase`; Lean's `Char.toUpper` is the same
ASCII-only mapping. -/
def toAsciiUppercase (s : String) : String :=
  (s.toList.map Char.toUpper).asString

/-- Rust `str::strip_prefix`. -/
def stripPrefixStr (s p : String) : Option String :=
  if p.toList.isPrefixOf s.toList then
    some ((s.toList.drop p.toList.length).asString)
  else none

/-- Rust `str::parse::<u64>()`: an optional leading `+`, then one or more
ASCII digits, rejecting values above `u64::MAX`. -/
def parseU64 (s : String) : Option Nat :=
  let cs := s.toList
  let t := match cs with
    | '+' :: rest => rest
    | _ => cs
  if t.isEmpty then none
  else if !(t.all Char.isDigit) then none
  else
    let n := t.foldl (fun acc c => acc * 10 + (c.toNat - 48)) 0
    if n < 2 ^ 64 then some n else none

/-- Rust `Debug` formatting of a string (`{:?}`): the string surrounded
by quotes, with quote and backslash escaped.  The values exercised here
contain neither. -/
def rustDebugStr (s : String) : String :=
  "\"" ++ (s.toList.foldl (fun acc c =>
    acc ++ (if c = '"' then "\\\"" else if c = '\\' then "\\\\"
            else String.singleton c)) "") ++ "\""

/-- A `std::time::Duration` represented by its millisecond count, as
produced by `Duration::from_millis`. -/
structure DurationV where
  millis : Nat
deriving DecidableEq, Repr

/-- Embeds `impl ParseValue for Duration` from src/config/utils.rs
(lines 294-327), byte for byte: the value is trimmed and uppercased, the
code then attempts to strip the lower-case unit letters as a PREFIX of
the uppercased string, multiplies and wraps in `u64` arithmetic. -/
def durationParseValue (key value : String) : Except String DurationV :=
  let duration := toAsciiUppercase (rustTrim value)
  let nm : String × Nat :=
    match stripPrefixStr duration "d" with
    | some num => (num, 24 * 60 * 60 * 1000)
    | none =>
      match stripPrefixStr duration "h" with
      | some num => (num, 60 * 60 * 1000)
      | none =>
        match stripPrefixStr duration "m" with
        | some num => (num, 60 * 1000)
        | none =>
          match stripPrefixStr duration "s" with
          | some num => (num, 1000)
          | none =>
            match stripPrefixStr duration "ms" with
            | some num => (num, 1)
            | none => (duration, 1)
  match parseU64 nm.1 with
  | some num =>
      if num > 0 then Except.ok ⟨num * nm.2 % 2 ^ 64⟩
      else Except.error ("Invalid duration value " ++ rustDebugStr value ++
        " for property " ++ rustDebugStr key ++ ".")
  | none =>
      Except.error ("Invalid duration value " ++ rustDebugStr value ++
        " for property " ++ rustDebugStr key ++ ".")

/-- What the specification describes for duration values (spec section 6:
duration with d/h/m/s/ms suffixes): written from the spec for comparison
with `durationParseValue`. -/
def specDurationOfSuffix (n : Nat) (suffix : String) : Option DurationV :=
  if suffix = "d" then some ⟨n * 24 * 60 * 60 * 1000⟩
  else if suffix = "h" then some ⟨n * 60 * 60 * 1000⟩
  else if suffix = "m" then some ⟨n * 60 * 1000⟩
  else if suffix = "s" then some ⟨n * 1000⟩
  else if suffix = "ms" then some ⟨n⟩
  else none

/-! ## Outbound MX candidate selection (src/outbound/lookup.rs) -/

/-- Embeds `enum RemoteHost` (MX variant) from src/outbound/mod.rs as used
by `ToRemoteHost::to_remote_hosts`. -/
inductive RemoteHost where
  | MX : String → RemoteHost
deriving DecidableEq, Repr

/-- The host name carried by a `RemoteHost`. -/
def RemoteHost.name : RemoteHost → String
  | RemoteHost.MX h => h

/-- The `mail_auth::MX` record consumed by `to_remote_hosts`: a list of
exchange host names sharing one preference value. -/
structure MXRecord where
  exchanges : List String
  preference : Nat
deriving DecidableEq, Repr

/-- Embeds the inner `for remote_host in slice` loop of
`to_remote_hosts` (src/outbound/lookup.rs lines 108-113): pushes hosts
one by one, stopping with `true` (the `break 'outer`) as soon as the
accumulated list reaches `max_mx` entries. -/
def pushHostsUntilMax (hosts : List String) (max_mx : Nat)
    (acc : List RemoteHost) : List RemoteHost × Bool :=
  match hosts with
  | [] => (acc, false)
  | h :: rest =>
    let acc2 := acc ++ [RemoteHost.MX h]
    if acc2.length == max_mx then (acc2, true)
    else pushHostsUntilMax rest max_mx acc2

/-- Embeds the `'outer: for mx in self.iter()` loop of `to_remote_hosts`
(src/outbound/lookup.rs lines 104-124).  The crate-provided random
shuffle is passed in as the `shuffle` parameter. -/
def toRemoteHostsLoop (shuffle : List String → List String)
    (mxs : List MXRecord) (max_mx : Nat) (acc : List RemoteHost) :
    Option (List RemoteHost) :=
  match mxs with
  | [] => some acc
  | mx :: rest =>
    if mx.exchanges.length > 1 then
      match pushHostsUntilMax (shuffle mx.exchanges) max_mx acc with
      | (acc2, true) => some acc2
      | (acc2, false) => toRemoteHostsLoop shuffle rest max_mx acc2
    else
      match mx.exchanges.head? with
      | some remote_host =>
        if mx.preference == 0 && remote_host == "." then none
        else
          let acc2 := acc ++ [RemoteHost.MX remote_host]
          if acc2.length == max_mx then some acc2
          else toRemoteHostsLoop shuffle rest max_mx acc2
      | none => toRemoteHostsLoop shuffle rest max_mx acc

/-- Embeds `ToRemoteHost::to_remote_hosts for Vec<MX>` from
src/outbound/lookup.rs (lines 94-132). -/
def to_remote_hosts (shuffle : List String → List String)
    (self : List MXRecord) (domain : String) (max_mx : Nat) :
    Option (List RemoteHost) :=
  if !self.isEmpty then toRemoteHostsLoop shuffle self max_mx []
  else some [RemoteHost.MX domain]

/-- Total number of exchange host names across a list of MX records. -/
def sumExchanges (mxs : List MXRecord) : Nat :=
  (mxs.map (fun mx => mx.exchanges.length)).sum

/-! ## DANE TLSA verification (src/outbound/dane/verify.rs) -/

/-- Embeds `struct TlsaEntry` (defined in src/outbound/dane/mod.rs,
reconstructed from its uses in verify.rs and the in-repo test at
verify.rs lines 228-233).  `data` is the record's binary hash payload. -/
structure TlsaEntry where
  is_end_entity : Bool
  is_sha256 : Bool
  is_spki : Bool
  data : List Nat
deriving DecidableEq, Repr

/-- Embeds `struct Tlsa` (src/outbound/dane/mod.rs, reconstructed from
its uses in verify.rs and the in-repo test at lines 195-199). -/
structure Tlsa where
  entries : List TlsaEntry
  has_end_entities : Bool
  has_intermediates : Bool
deriving DecidableEq, Repr

/-- The external collaborators of `Tlsa::verify`: the SHA-256/SHA-512
hashes (mail_auth::sha2) and the X.509 DER parser (x509_parser), which on
success exposes the certificate's raw SubjectPublicKeyInfo bytes.
Certificates are DER byte lists. -/
structure CryptoEnv where
  sha256 : List Nat → List Nat
  sha512 : List Nat → List Nat
  parseSpki : List Nat → Option (List Nat)

/-- The hash a TLSA record is compared against for one certificate:
SHA-256 or SHA-512 per the record's matching type, over the SPKI or the
raw DER per the record's selector (verify.rs lines 63-83; the
`get_or_insert_with` memoisation is semantically transparent). -/
def recordHash (env : CryptoEnv) (e : TlsaEntry) (der spki : List Nat) :
    List Nat :=
  if e.is_sha256 then env.sha256 (if e.is_spki then spki else der)
  else env.sha512 (if e.is_spki then spki else der)

/-- One record matches one certificate when the record is for the right
bucket and its data equals the certificate's hash (verify.rs lines 62,
85). -/
def recordMatches (env : CryptoEnv) (e : TlsaEntry) (is_end_entity : Bool)
    (der spki : List Nat) : Bool :=
  e.is_end_entity == is_end_entity && recordHash env e der spki == e.data

/-- Embeds the `'outer: for (pos, der_certificate)` loop of
`Tlsa::verify` (verify.rs lines 37-112).  `none` signals the early
return on an X.509 parse failure; `some (mEE, mInt)` are the
`matched_end_entity` / `matched_intermediate` flags when the loop ends.
The `break 'outer` paths are the two `some` early exits: an end-entity
match with no intermediate records declared, and any intermediate
match. -/
def tlsaVerifyLoop (env : CryptoEnv) (tlsa : Tlsa) :
    List (List Nat) → Nat → Bool → Bool → Option (Bool × Bool)
  | [], _, mEE, mInt => some (mEE, mInt)
  | der :: rest, pos, mEE, mInt =>
    match env.parseSpki der with
    | none => none
    | some spki =>
      let is_end_entity := pos == 0
      let found := tlsa.entries.any
        (fun e => recordMatches env e is_end_entity der spki)
      if is_end_entity then
        if found && !tlsa.has_intermediates then some (true, mInt)
        else tlsaVerifyLoop env tlsa rest (pos + 1) (mEE || found) mInt
      else
        if found then some (mEE, true)
        else tlsaVerifyLoop env tlsa rest (pos + 1) mEE mInt

/-- Embeds `Tlsa::verify` from src/outbound/dane/verify.rs
(lines 13-138). -/
def Tlsa.verify (env : CryptoEnv) (self : Tlsa) (hostname : String)
    (certificates : Option (List (List Nat))) :
    Except (Status Unit Error) Unit :=
  match certificates with
  | none => Except.error (Status.TemporaryFailure (Error.DaneError
      ⟨hostname, "No certificates were provided by host"⟩))
  | some certs =>
    match tlsaVerifyLoop env self certs 0 false false with
    | none => Except.error (Status.TemporaryFailure (Error.DaneError
        ⟨hostname, "Failed to parse X.509 certificate"⟩))
    | some (mEE, mInt) =>
      if self.has_end_entities == mEE && self.has_intermediates == mInt then
        Except.ok ()
      else
        Except.error (Status.PermanentFailure (Error.DaneError
          ⟨hostname, "No matching certificates found in TLSA records"⟩))

/-- Well-formedness of a `Tlsa` as established by the lookup code that
builds it (and by the in-repo test harness, verify.rs lines 222-233): a
bucket flag is set exactly when an entry of that bucket exists. -/
def Tlsa.wf (self : Tlsa) : Prop :=
  self.has_end_entities = self.entries.any (fun e => e.is_end_entity) ∧
  self.has_intermediates = self.entries.any (fun e => !e.is_end_entity)

/-- Whether one (intermediate-position) certificate has a matching
intermediate record. -/
def intermediateCertMatch (env : CryptoEnv) (tlsa : Tlsa)
    (der : List Nat) : Bool :=
  match env.parseSpki der with
  | some spki => tlsa.entries.any (fun e => recordMatches env e false der spki)
  | none => false

/-- Spec side of C1, written from the spec's words: the end-entity bucket
is matched when some end-entity record's data equals the corresponding
hash of the chain's end-entity (first) certificate. -/
def specEndEntityMatched (env : CryptoEnv) (tlsa : Tlsa)
    (certs : List (List Nat)) : Bool :=
  match certs with
  | [] => false
  | der :: _ =>
    match env.parseSpki der with
    | some spki => tlsa.entries.any (fun e => recordMatches env e true der spki)
    | none => false

/-- Spec side of C1, written from the spec's words: the intermediate
bucket is matched when some intermediate record matches some intermediate
certificate of the chain. -/
def specIntermediateMatched (env : CryptoEnv) (tlsa : Tlsa)
    (certs : List (List Nat)) : Bool :=
  (certs.drop 1).any (intermediateCertMatch env tlsa)

/-- A concrete crypto environment used for witnesses: identity hashes and
a parser accepting everything. -/
def demoCryptoEnv : CryptoEnv :=
  ⟨fun l => l, fun l => 1 :: l, fun der => some der⟩

/-- A concrete crypto environment whose parser accepts only `[1]`. -/
def strictCryptoEnv : CryptoEnv :=
  ⟨fun l => l, fun l => 1 :: l, fun der => if der = [1] then some der else none⟩

deriving instance DecidableEq for Except

/-! ## AUTH command dispatch (src/listener/session.rs lines 72-100) -/

/-- The smtp-proto SASL mechanism bit flags (external crate
`smtp_proto`); the concrete bit positions are immaterial, only
distinctness matters to the mask logic. -/
def AUTH_LOGIN : Nat := 1

def AUTH_PLAIN : Nat := 2

def AUTH_XOAUTH2 : Nat := 4

def AUTH_OAUTHBEARER : Nat := 8

/-- Modelled from the spec: `SaslToken::from_mechanism` lives in
src/listener/auth.rs, which is not part of the provided sources.  Per
the spec (design notes: only LOGIN/PLAIN/XOAUTH2/OAUTHBEARER are
active), a token is produced exactly for one of the four active
mechanisms. -/
def saslTokenFromMechanism (mech : Nat) : Option Nat :=
  if mech = AUTH_LOGIN || mech = AUTH_PLAIN || mech = AUTH_XOAUTH2 ||
      mech = AUTH_OAUTHBEARER then
    some mech
  else none

/-- The possible dispositions of the `Request::Auth` arm of
`Session::ingest`. -/
inductive AuthDecision where
  | rejectNotAllowed : AuthDecision
  | rejectAlreadyAuthed : AuthDecision
  | rejectNotSupported : AuthDecision
  | proceedSasl : Nat → AuthDecision
deriving DecidableEq, Repr

/-- Embeds the `Request::Auth` arm of `Session::ingest`
(src/listener/session.rs lines 72-100).  `rejectNotAllowed` is
`503 5.5.1 AUTH not allowed.`, `rejectAlreadyAuthed` is
`503 5.5.1 Already authenticated.`, `rejectNotSupported` is
`554 5.7.8 Authentication mechanism not supported.`, and `proceedSasl`
enters the SASL exchange.  The `is_tls` parameter is the session's TLS
state; the source carries the comment `TODO no plain auth over
plaintext` and never consults it. -/
def authRequestDecision (is_tls : Bool) (params_auth : Nat)
    (has_auth_lookup : Bool) (authenticated_as : String)
    (mechanism : Nat) : AuthDecision :=
  if params_auth == 0 || !has_auth_lookup then
    AuthDecision.rejectNotAllowed
  else if !(authenticated_as == "") then
    AuthDecision.rejectAlreadyAuthed
  else
    match saslTokenFromMechanism (Nat.land mechanism params_auth) with
    | some token => AuthDecision.proceedSasl token
    | none => AuthDecision.rejectNotSupported

/-! ## Message size limits in Session::ingest (src/listener/session.rs) -/

/-- Outcome of the `State::Data` arm of `Session::ingest`. -/
inductive DataArmResult where
  | queued : DataArmResult
  | needMore : DataArmResult
  | tooLarge : DataArmResult
deriving DecidableEq, Repr

/-- Embeds the `State::Data` arm of `Session::ingest`
(src/listener/session.rs lines 203-214): when the buffered message plus
the incoming buffer stays under `data_max_message_size` the smtp-proto
`DataReceiver` keeps accumulating (`queued` on the terminating
CRLF-dot-CRLF, `needMore` otherwise); otherwise the state switches to
`DataTooLarge`.  The external receiver's completion is the
`receiver_done` parameter. -/
def dataStateArm (data_max_message_size msg_len bytes_len : Nat)
    (receiver_done : Bool) : DataArmResult :=
  if msg_len + bytes_len < data_max_message_size then
    if receiver_done then DataArmResult.queued else DataArmResult.needMore
  else DataArmResult.tooLarge

/-- Next state chosen by the `Request::Bdat` arm. -/
inductive BdatArmResult where
  | bdatChunk : BdatArmResult
  | tooLarge : BdatArmResult
deriving DecidableEq, Repr

/-- Embeds the `Request::Bdat` arm of `Session::ingest`
(src/listener/session.rs lines 52-70): the chunk is accepted into a
`State::Bdat` receiver when it fits, otherwise the session enters
`State::DataTooLarge` draining the chunk. -/
def bdatRequestArm (data_max_message_size msg_len chunk_size : Nat) :
    BdatArmResult :=
  if chunk_size + msg_len < data_max_message_size then
    BdatArmResult.bdatChunk
  else BdatArmResult.tooLarge

/-- Embeds the `State::DataTooLarge` arm of `Session::ingest`
(src/listener/session.rs lines 252-261).  Returns the message buffer,
the reply written (if any), and whether the drain finished and the state
was reset. -/
def dataTooLargeArm (message : List Nat) (receiver_done : Bool) :
    List Nat × Option String × Bool :=
  if receiver_done then
    ([], some "552 5.3.4 Message too big for system.\r\n", true)
  else (message, none, false)

/-! ## RCPT handling (src/inbound/rcpt.rs) -/

/-- Rust `str::to_lowercase`; the addresses exercised here are ASCII,
for which Lean's `Char.toLower` is the same mapping. -/
def toLowercaseStr (s : String) : String :=
  (s.toList.map Char.toLower).asString

/-- Embeds `DomainPart::domain_part` from src/queue/mod.rs
(lines 435-440): the substring after the last `@`, or empty. -/
def domainPart (s : String) : String :=
  let cs := s.toList
  if cs.contains '@' then
    ((cs.reverse.takeWhile (fun c => c != '@')).reverse).asString
  else ""

/-- Embeds `struct SessionAddress` (src/core/mod.rs, reconstructed from
its construction in rcpt.rs lines 65-71). -/
structure SessionAddress where
  address : String
  address_lcase : String
  domain : String
  flags : Nat
  dsn_info : Option String
deriving DecidableEq, Repr

/-- Modelled from the spec: `PartialEq for SessionAddress` lives in
src/core/mod.rs, which is not part of the provided sources; the data
model keeps a case-folded address form precisely so that recipients
compare by it. -/
def SessionAddress.beqAddr (a b : SessionAddress) : Bool :=
  a.address_lcase == b.address_lcase

/-- The smtp-proto RCPT NOTIFY flag mask (external crate `smtp_proto`):
`RCPT_NOTIFY_DELAY | RCPT_NOTIFY_NEVER | RCPT_NOTIFY_SUCCESS |
RCPT_NOTIFY_FAILURE` as one bit mask; concrete bit positions are
immaterial to the dispatch logic. -/
def RCPT_NOTIFY_MASK : Nat := 15

/-- Result of the Sieve script run consumed by `handle_rcpt_to`
(core/scripts.rs `ScriptResult`). -/
inductive ScriptResult where
  | accept : ScriptResult
  | replace : ScriptResult
  | reject : String → ScriptResult
deriving DecidableEq, Repr

/-- The session parameters and session-dependent collaborators consumed
by `handle_rcpt_to`: the two remote lookups (`contains` may return
`none` on a temporary lookup failure), the optional RCPT Sieve script's
result, and the throttle admission result. -/
structure RcptParams where
  rcpt_max : Nat
  rcpt_dsn : Bool
  rcpt_relay : Bool
  rcpt_errors_max : Nat
  lookups_configured : Bool
  domain_lookup : String → Option Bool
  address_lookup : String → Option Bool
  has_rcpt_script : Bool
  script_result : ScriptResult
  throttle_allowed : Bool

/-- The session state read and written by `handle_rcpt_to`. -/
structure RcptSessionData where
  mail_from_present : Bool
  rcpt_to : List SessionAddress
  rcpt_errors : Nat
deriving DecidableEq, Repr

/-- The observable outcome of one `handle_rcpt_to` call: the updated
recipient list and error counter, the replies written to the peer, and
whether the Sieve script ran, the throttle was consulted, or the session
was terminated (`Err(())` after too many errors). -/
structure RcptOutcome where
  rcpt_to : List SessionAddress
  rcpt_errors : Nat
  replies : List String
  script_ran : Bool
  throttle_checked : Bool
  disconnect : Bool
deriving DecidableEq, Repr

/-- Embeds `Session::rcpt_error` (src/inbound/rcpt.rs lines 166-184):
sleep, bump the error counter, write the response, and disconnect with
`421 4.3.0` when the budget is exhausted. -/
def rcptErrorStep (p : RcptParams) (d : RcptSessionData)
    (response : String) : RcptOutcome :=
  let errors := d.rcpt_errors + 1
  if errors < p.rcpt_errors_max then
    ⟨d.rcpt_to, errors, [response], false, false, false⟩
  else
    ⟨d.rcpt_to, errors,
      [response, "421 4.3.0 Too many errors, disconnecting.\r\n"],
      false, false, true⟩

/-- The duplicate-check-and-queue tail of `handle_rcpt_to`
(src/inbound/rcpt.rs lines 131-163): push unless already present, run
the Sieve script (popping on reject), consult the throttle (popping on
denial), reply `250 2.1.5 OK`. -/
def rcptQueuePhase (p : RcptParams) (d : RcptSessionData)
    (rcpt : SessionAddress) : RcptOutcome :=
  if !(d.rcpt_to.any (fun r => SessionAddress.beqAddr r rcpt)) then
    let pushed := d.rcpt_to ++ [rcpt]
    match hs : p.has_rcpt_script, p.script_result with
    | true, ScriptResult.reject message =>
        ⟨d.rcpt_to, d.rcpt_errors, [message], true, false, false⟩
    | true, _ =>
        if p.throttle_allowed then
          ⟨pushed, d.rcpt_errors, ["250 2.1.5 OK\r\n"], true, true, false⟩
        else
          ⟨d.rcpt_to, d.rcpt_errors,
            ["451 4.4.5 Rate limit exceeded, try again later.\r\n"],
            true, true, false⟩
    | false, _ =>
        if p.throttle_allowed then
          ⟨pushed, d.rcpt_errors, ["250 2.1.5 OK\r\n"], false, true, false⟩
        else
          ⟨d.rcpt_to, d.rcpt_errors,
            ["451 4.4.5 Rate limit exceeded, try again later.\r\n"],
            false, true, false⟩
  else
    ⟨d.rcpt_to, d.rcpt_errors, ["250 2.1.5 OK\r\n"], false, false, false⟩

/-- Embeds `Session::handle_rcpt_to` (src/inbound/rcpt.rs lines 35-164;
the `#[cfg(test)]` debug block is test-only and omitted). -/
def handle_rcpt_to (p : RcptParams) (d : RcptSessionData)
    (to_address : String) (to_flags : Nat) (to_orcpt : Option String) :
    RcptOutcome :=
  if !d.mail_from_present then
    ⟨d.rcpt_to, d.rcpt_errors, ["503 5.5.1 MAIL is required first.\r\n"],
      false, false, false⟩
  else if p.rcpt_max ≤ d.rcpt_to.length then
    ⟨d.rcpt_to, d.rcpt_errors, ["451 4.5.3 Too many recipients.\r\n"],
      false, false, false⟩
  else if (Nat.land to_flags RCPT_NOTIFY_MASK != 0 || to_orcpt.isSome) &&
      !p.rcpt_dsn then
    ⟨d.rcpt_to, d.rcpt_errors,
      ["501 5.5.4 DSN extension has been disabled.\r\n"],
      false, false, false⟩
  else
    let address_lcase := toLowercaseStr to_address
    let rcpt : SessionAddress :=
      ⟨to_address, address_lcase, domainPart address_lcase, to_flags,
        to_orcpt⟩
    if p.lookups_configured then
      match p.domain_lookup rcpt.domain with
      | some true =>
        match p.address_lookup rcpt.address_lcase with
        | some true => rcptQueuePhase p d rcpt
        | some false =>
            rcptErrorStep p d "550 5.1.2 Mailbox does not exist.\r\n"
        | none =>
            ⟨d.rcpt_to, d.rcpt_errors,
              ["451 4.4.3 Unable to verify address at this time.\r\n"],
              false, false, false⟩
      | some false =>
        if !p.rcpt_relay then
          rcptErrorStep p d "550 5.1.2 Relay not allowed.\r\n"
        else rcptQueuePhase p d rcpt
      | none =>
          ⟨d.rcpt_to, d.rcpt_errors,
            ["451 4.4.3 Unable to verify address at this time.\r\n"],
            false, false, false⟩
    else if !p.rcpt_relay then
      rcptErrorStep p d "550 5.1.2 Relay not allowed.\r\n"
    else rcptQueuePhase p d rcpt

/-- The conditions under which the verification phase of
`handle_rcpt_to` falls through to the duplicate-check-and-queue tail. -/
def rcptVerificationPasses (p : RcptParams) (domain address_lcase : String) :
    Prop :=
  (p.lookups_configured = true ∧ p.domain_lookup domain = some true ∧
    p.address_lookup address_lcase = some true) ∨
  (p.lookups_configured = true ∧ p.domain_lookup domain = some false ∧
    p.rcpt_relay = true) ∨
  (p.lookups_configured = false ∧ p.rcpt_relay = true)

/-! ## Management interface request parsing (src/core/management.rs) -/

/-- `lookup::LookupResult` (variants visible in src/lookup/spawn.rs
lines 180-199); the Lean constructor names avoid the `Prop` constants. -/
inductive LookupResult where
  | isTrue : LookupResult
  | isFalse : LookupResult
  | values : List String → LookupResult
deriving DecidableEq, Repr

/-- Rust `str::eq_ignore_ascii_case`. -/
def eqIgnoreAsciiCase (a b : String) : Bool :=
  toAsciiUppercase a == toAsciiUppercase b

/-- Rust `str::split_once`: split at the first occurrence of `c`. -/
def splitOnceChar (s : String) (c : Char) : Option (String × String) :=
  let cs := s.toList
  let pre := cs.takeWhile (fun x => x != c)
  if pre.length = cs.length then none
  else some (pre.asString, (cs.drop (pre.length + 1)).asString)

/-- Rust `str::split`: all fields separated by `c` (an empty string
yields one empty field, as in Rust). -/
def splitAllChar (s : String) (c : Char) : List String :=
  (s.toList.splitOn c).map List.asString

/-- Embeds `QueueRequest` from src/core/management.rs (lines 35-59);
the `result_tx` reply channels are external. -/
inductive QueueRequest where
  | list : Option String → Option String → Option Nat → Option Nat →
      QueueRequest
  | status : List Nat → QueueRequest
  | cancel : List Nat → Option String → QueueRequest
  | retry : List Nat → Option String → Nat → QueueRequest
deriving DecidableEq, Repr

/-- `reporting::scheduler::ReportKey` as parsed by `parse_report_ids`
(management.rs lines 924-950): a DMARC key is (domain, policy hash), a
TLS key is a domain. -/
inductive ReportKey where
  | dmarc : String → Nat → ReportKey
  | tls : String → ReportKey
deriving DecidableEq, Repr

/-- `ReportType<(), ()>` as selected by the `type` query parameter. -/
inductive ReportTypeSel where
  | dmarc : ReportTypeSel
  | tls : ReportTypeSel
deriving DecidableEq, Repr

/-- Embeds `ReportRequest` from src/core/management.rs (lines 61-76). -/
inductive ReportRequest where
  | list : Option ReportTypeSel → Option String → ReportRequest
  | status : List ReportKey → ReportRequest
  | cancel : List ReportKey → ReportRequest
deriving DecidableEq, Repr

/-- A control command handed to one of the two management channels. -/
inductive Dispatched where
  | queue : QueueRequest → Dispatched
  | report : ReportRequest → Dispatched
deriving DecidableEq, Repr

/-- The external collaborators of `parse_request`: the base64 decoder
combined with UTF-8 validation (`base64_decode` then
`String::from_utf8`), the management credential lookup (`none` models a
backend failure), the RFC3339 timestamp parse combined with the
`Instant::now()` comparison of `parse_timestamp` (clock dependent), the
current instant used as the default retry time, and the two control
channels' round-trip results (status code and JSON body produced by
`send_queue_event` / `send_report_event`). -/
structure MgmtEnv where
  base64DecodeUtf8 : String → Option String
  lookup : String → String → Option LookupResult
  parseTimestampAt : String → Option Nat
  now : Nat
  queueChannel : QueueRequest → Nat × String
  reportChannel : ReportRequest → Nat × String

/-- Embeds the authentication prologue of `parse_request`
(src/core/management.rs lines 281-338): `is_authenticated` becomes true
exactly when an Authorization header is present, its first token is
`basic` (ASCII case-insensitive), the payload base64-decodes to UTF-8
text containing a colon, and the management lookup answers
`Some(LookupResult::True)` for the trimmed lower-cased login and the
secret. -/
def managementAuthenticated (env : MgmtEnv)
    (auth_header : Option String) : Bool :=
  match auth_header with
  | none => false
  | some h =>
    match splitOnceChar (rustTrim h) ' ' with
    | none => false
    | some (mechanism, payload) =>
      if eqIgnoreAsciiCase mechanism "basic" then
        match env.base64DecodeUtf8 payload with
        | some token =>
          match splitOnceChar token ':' with
          | some (login, secret) =>
            match env.lookup (toLowercaseStr (rustTrim login)) secret with
            | some LookupResult.isTrue => true
            | _ => false
          | none => false
        | none => false
      else false

/-- Embeds `parse_timestamp` (management.rs lines 895-905); the RFC3339
parse and the comparison against `Instant::now()` are the clock-bound
oracle. -/
def parse_timestamp (env : MgmtEnv) (s : String) : Except String Nat :=
  match env.parseTimestampAt s with
  | some t => Except.ok t
  | none => Except.error ("Invalid timestamp " ++ rustDebugStr s ++ ".")

/-- Embeds `parse_queue_ids` (management.rs lines 907-923): comma
separated u64 ids, empty fields skipped. -/
def parse_queue_ids (s : String) : Except String (List Nat) :=
  go (splitAllChar s ',') []
where
  go : List String → List Nat → Except String (List Nat)
  | [], ids => Except.ok ids
  | id :: rest, ids =>
    if id.isEmpty then go rest ids
    else
      match parseU64 id with
      | some n => go rest (ids ++ [n])
      | none => Except.error ("Failed to parse id " ++ rustDebugStr id ++ ".")

/-- Embeds `parse_report_ids` (management.rs lines 924-950): comma
separated keys of the form `d!domain!policy` or `t!domain`. -/
def parse_report_ids (s : String) : Except String (List ReportKey) :=
  go (splitAllChar s ',') []
where
  go : List String → List ReportKey → Except String (List ReportKey)
  | [], ids => Except.ok ids
  | id :: rest, ids =>
    if id.isEmpty then go rest ids
    else
      let parts := splitAllChar id '!'
      match parts.get? 0, parts.get? 1 with
      | some "d", some domain =>
        if !domain.isEmpty then
          match parts.get? 2 with
          | some policy =>
            match parseU64 policy with
            | some n => go rest (ids ++ [ReportKey.dmarc domain n])
            | none =>
              Except.error ("Failed to parse id " ++ rustDebugStr id ++ ".")
          | none =>
            Except.error ("Failed to parse id " ++ rustDebugStr id ++ ".")
        else Except.error ("Failed to parse id " ++ rustDebugStr id ++ ".")
      | some "t", some domain =>
        if !domain.isEmpty then go rest (ids ++ [ReportKey.tls domain])
        else Except.error ("Failed to parse id " ++ rustDebugStr id ++ ".")
      | _, _ => Except.error ("Failed to parse id " ++ rustDebugStr id ++ ".")

/-- The query loop of the `queue/list` endpoint (management.rs
lines 358-397). -/
def queueListLoop (env : MgmtEnv) :
    List (String × String) → Option String → Option String →
    Option Nat → Option Nat →
    (Option String × Option String × Option Nat × Option Nat) ×
      Option String
  | [], f, t, b, a => ((f, t, b, a), none)
  | (key, value) :: rest, f, t, b, a =>
    if key == "from" then queueListLoop env rest (some value) t b a
    else if key == "to" then queueListLoop env rest f (some value) b a
    else if key == "after" then
      match parse_timestamp env value with
      | Except.ok dt => queueListLoop env rest f t b (some dt)
      | Except.error reason => ((f, t, b, a), some reason)
    else if key == "before" then
      match parse_timestamp env value with
      | Except.ok dt => queueListLoop env rest f t (some dt) a
      | Except.error reason => ((f, t, b, a), some reason)
    else ((f, t, b, a), some ("Invalid parameter " ++ rustDebugStr key ++ "."))

/-- The query loop shared by `queue/status` (management.rs
lines 417-439) and, with the id parser swapped, the report id
endpoints. -/
def queueIdsLoop :
    List (String × String) → List Nat → List Nat × Option String
  | [], ids => (ids, none)
  | (key, value) :: rest, ids =>
    if key == "id" || key == "ids" then
      match parse_queue_ids value with
      | Except.ok ids2 => queueIdsLoop rest ids2
      | Except.error reason => (ids, some reason)
    else (ids, some ("Invalid parameter " ++ rustDebugStr key ++ "."))

/-- The query loop of `queue/retry` (management.rs lines 456-492). -/
def queueRetryLoop (env : MgmtEnv) :
    List (String × String) → List Nat → Nat → Option String →
    (List Nat × Nat × Option String) × Option String
  | [], ids, time, item => ((ids, time, item), none)
  | (key, value) :: rest, ids, time, item =>
    if key == "id" || key == "ids" then
      match parse_queue_ids value with
      | Except.ok ids2 => queueRetryLoop env rest ids2 time item
      | Except.error reason => ((ids, time, item), some reason)
    else if key == "at" then
      match parse_timestamp env value with
      | Except.ok dt => queueRetryLoop env rest ids dt item
      | Except.error reason => ((ids, time, item), some reason)
    else if key == "filter" then queueRetryLoop env rest ids time (some value)
    else ((ids, time, item),
      some ("Invalid parameter " ++ rustDebugStr key ++ "."))

/-- The query loop of `queue/cancel` (management.rs lines 511-537). -/
def queueCancelLoop :
    List (String × String) → List Nat → Option String →
    (List Nat × Option String) × Option String
  | [], ids, item => ((ids, item), none)
  | (key, value) :: rest, ids, item =>
    if key == "id" || key == "ids" then
      match parse_queue_ids value with
      | Except.ok ids2 => queueCancelLoop rest ids2 item
      | Except.error reason => ((ids, item), some reason)
    else if key == "filter" then queueCancelLoop rest ids (some value)
    else ((ids, item), some ("Invalid parameter " ++ rustDebugStr key ++ "."))

/-- The query loop of `report/list` (management.rs lines 555-584). -/
def reportListLoop :
    List (String × String) → Option ReportTypeSel → Option String →
    (Option ReportTypeSel × Option String) × Option String
  | [], ty, dom => ((ty, dom), none)
  | (key, value) :: rest, ty, dom =>
    if key == "type" then
      if value == "dmarc" then reportListLoop rest (some ReportTypeSel.dmarc) dom
      else if value == "tls" then reportListLoop rest (some ReportTypeSel.tls) dom
      else ((ty, dom), some ("Invalid report type " ++ rustDebugStr value ++ "."))
    else if key == "domain" then reportListLoop rest ty (some value)
    else ((ty, dom), some ("Invalid parameter " ++ rustDebugStr key ++ "."))

/-- The query loop of `report/status` and `report/cancel` (management.rs
lines 602-663). -/
def reportIdsLoop :
    List (String × String) → List ReportKey →
    List ReportKey × Option String
  | [], ids => (ids, none)
  | (key, value) :: rest, ids =>
    if key == "id" || key == "ids" then
      match parse_report_ids value with
      | Except.ok ids2 => reportIdsLoop rest ids2
      | Except.error reason => (ids, some reason)
    else (ids, some ("Invalid parameter " ++ rustDebugStr key ++ "."))

/-- An HTTP request as consumed by `parse_request`: the method (only GET
is matched), the URI path, the query pairs as produced by the external
`form_urlencoded` crate (`none` when the URI has no query string), and
the Authorization header when present and readable as a string. -/
structure HttpRequest where
  method_get : Bool
  path : String
  query : Option (List (String × String))
  auth_header : Option String

/-- The observable HTTP response of `parse_request`: status code,
whether the `WWW-Authenticate: Basic realm="Stalwart SMTP"` header is
set, whether the JSON content type is set, and the body (`none` is the
empty body). -/
structure MgmtResponse where
  status : Nat
  www_authenticate_basic : Bool
  content_type_json : Bool
  body : Option String
deriving DecidableEq, Repr

/-- The `StatusCode::NOT_FOUND` body (management.rs lines 680-686). -/
def notFoundBody (path : String) : String :=
  "\x7b\"error\": \"not-found\", \"details\": \"URL " ++ path ++
    " does not exist.\"\x7d"

/-- The `into_bad_request` body (management.rs lines 953-965);
`serde_json::to_string` of a plain string is its quoted form. -/
def badRequestBody (error : String) : String :=
  "\x7b\"error\": \"bad-parameters\", \"details\": " ++
    rustDebugStr error ++ "\x7d"

/-- Wraps a dispatched queue command: the channel round trip of
`send_queue_event` yields the status and JSON body. -/
def dispatchQueue (env : MgmtEnv) (cmd : QueueRequest) :
    MgmtResponse × Option Dispatched :=
  let r := env.queueChannel cmd
  (⟨r.1, false, true, some r.2⟩, some (Dispatched.queue cmd))

/-- Wraps a dispatched report command (`send_report_event`). -/
def dispatchReport (env : MgmtEnv) (cmd : ReportRequest) :
    MgmtResponse × Option Dispatched :=
  let r := env.reportChannel cmd
  (⟨r.1, false, true, some r.2⟩, some (Dispatched.report cmd))

/-- A 400 response with no dispatched command. -/
def badRequest (error : String) : MgmtResponse × Option Dispatched :=
  (⟨400, false, true, some (badRequestBody error)⟩, none)

/-- Embeds `parse_request` from src/core/management.rs
(lines 273-701).  The unauthenticated early return (lines 339-352)
produces 401 with the `WWW-Authenticate: Basic` header and an empty
body before any endpoint is examined; afterwards the
`(method, path segment 1, segment 2)` match drives the seven
endpoints. -/
def parse_request (env : MgmtEnv) (req : HttpRequest) :
    MgmtResponse × Option Dispatched :=
  if managementAuthenticated env req.auth_header then
    let segs := splitAllChar req.path '/'
    match req.method_get, segs.get? 1, segs.get? 2 with
    | true, some "queue", some "list" =>
      match queueListLoop env (req.query.getD []) none none none none with
      | ((f, t, b, a), none) => dispatchQueue env (QueueRequest.list f t b a)
      | (_, some e) => badRequest e
    | true, some "queue", some "status" =>
      match queueIdsLoop (req.query.getD []) [] with
      | (ids, none) => dispatchQueue env (QueueRequest.status ids)
      | (_, some e) => badRequest e
    | true, some "queue", some "retry" =>
      match queueRetryLoop env (req.query.getD []) [] env.now none with
      | ((ids, time, item), none) =>
          dispatchQueue env (QueueRequest.retry ids item time)
      | (_, some e) => badRequest e
    | true, some "queue", some "cancel" =>
      match queueCancelLoop (req.query.getD []) [] none with
      | ((ids, item), none) => dispatchQueue env (QueueRequest.cancel ids item)
      | (_, some e) => badRequest e
    | true, some "report", some "list" =>
      match reportListLoop (req.query.getD []) none none with
      | ((ty, dom), none) => dispatchReport env (ReportRequest.list ty dom)
      | (_, some e) => badRequest e
    | true, some "report", some "status" =>
      match reportIdsLoop (req.query.getD []) [] with
      | (ids, none) => dispatchReport env (ReportRequest.status ids)
      | (_, some e) => badRequest e
    | true, some "report", some "cancel" =>
      match reportIdsLoop (req.query.getD []) [] with
      | (ids, none) => dispatchReport env (ReportRequest.cancel ids)
      | (_, some e) => badRequest e
    | _, _, _ => (⟨404, false, true, some (notFoundBody req.path)⟩, none)
  else
    (⟨401, true, false, none⟩, none)

/-! ## Theorems -/

lemma pushHostsUntilMax_nobreak (max_mx : Nat) :
    ∀ (hosts : List String) (acc : List RemoteHost),
      acc.length + hosts.length < max_mx →
      pushHostsUntilMax hosts max_mx acc =
        (acc ++ hosts.map RemoteHost.MX, false) := by
  intro hosts
  induction hosts with
  | nil => intro acc h; simp [pushHostsUntilMax]
  | cons h rest ih =>
    intro acc hlt
    have hne : ((acc ++ [RemoteHost.MX h]).length == max_mx) = false := by
      simp only [List.length_append, List.length_cons, List.length_nil,
        beq_eq_false_iff_ne, ne_eq]
      simp only [List.length_cons] at hlt
      omega
    simp only [pushHostsUntilMax, hne, if_neg, Bool.false_eq_true,
      if_false]
    rw [ih]
    · simp
    · simp only [List.length_append, List.length_cons, List.length_nil]
      simp only [List.length_cons] at hlt
      omega

lemma pushHostsUntilMax_spec (max_mx : Nat) :
    ∀ (hosts : List String) (acc : List RemoteHost),
      acc.length < max_mx →
      ((pushHostsUntilMax hosts max_mx acc).1.length ≤ max_mx ∧
       ((pushHostsUntilMax hosts max_mx acc).2 = false →
         (pushHostsUntilMax hosts max_mx acc).1.length < max_mx) ∧
       ∀ r ∈ (pushHostsUntilMax hosts max_mx acc).1,
         r ∈ acc ∨ ∃ h ∈ hosts, r = RemoteHost.MX h) := by
  intro hosts
  induction hosts with
  | nil =>
    intro acc hlt
    refine ⟨Nat.le_of_lt hlt, fun _ => hlt, ?_⟩
    intro r hr
    exact Or.inl hr
  | cons h rest ih =>
    intro acc hlt
    by_cases hmax : (acc ++ [RemoteHost.MX h]).length = max_mx
    · have hbeq : ((acc ++ [RemoteHost.MX h]).length == max_mx) = true := by
        simpa using hmax
      simp only [pushHostsUntilMax, hbeq, if_true]
      refine ⟨Nat.le_of_eq hmax, by simp, ?_⟩
      intro r hr
      rcases List.mem_append.mp hr with hr | hr
      · exact Or.inl hr
      · simp only [List.mem_singleton] at hr
        exact Or.inr ⟨h, by simp, hr⟩
    · have hbeq : ((acc ++ [RemoteHost.MX h]).length == max_mx) = false := by
        simpa using hmax
      have hlt2 : (acc ++ [RemoteHost.MX h]).length < max_mx := by
        simp only [List.length_append, List.length_cons, List.length_nil] at hmax ⊢
        omega
      simp only [pushHostsUntilMax, hbeq, Bool.false_eq_true, if_false]
      obtain ⟨h1, h2, h3⟩ := ih (acc ++ [RemoteHost.MX h]) hlt2
      refine ⟨h1, h2, ?_⟩
      intro r hr
      rcases h3 r hr with hr2 | ⟨x, hx, hrx⟩
      · rcases List.mem_append.mp hr2 with hr3 | hr3
        · exact Or.inl hr3
        · simp only [List.mem_singleton] at hr3
          exact Or.inr ⟨h, by simp, hr3⟩
      · exact Or.inr ⟨x, List.mem_cons_of_mem h hx, hrx⟩

lemma toRemoteHostsLoop_spec (shuffle : List String → List String)
    (hsh : ∀ l : List String, (shuffle l).Perm l) (max_mx : Nat) :
    ∀ (mxs : List MXRecord) (acc : List RemoteHost),
      acc.length < max_mx →
      ∀ hosts, toRemoteHostsLoop shuffle mxs max_mx acc = some hosts →
        hosts.length ≤ max_mx ∧
        ∀ r ∈ hosts, r ∈ acc ∨ ∃ mx ∈ mxs, r.name ∈ mx.exchanges := by
  intro mxs
  induction mxs with
  | nil =>
    intro acc hlt hosts heq
    simp only [toRemoteHostsLoop, Option.some.injEq] at heq
    subst heq
    exact ⟨Nat.le_of_lt hlt, fun r hr => Or.inl hr⟩
  | cons mx rest ih =>
    intro acc hlt hosts heq
    by_cases hm : mx.exchanges.length > 1
    · simp only [toRemoteHostsLoop, hm, if_true] at heq
      obtain ⟨hlen, hfalse, hmem⟩ :=
        pushHostsUntilMax_spec max_mx (shuffle mx.exchanges) acc hlt
      rcases hb : (pushHostsUntilMax (shuffle mx.exchanges) max_mx acc) with ⟨acc2, b⟩
      rw [hb] at heq hlen hfalse hmem
      cases b with
      | true =>
        simp only [Option.some.injEq] at heq
        subst heq
        refine ⟨hlen, ?_⟩
        intro r hr
        rcases hmem r hr with hr2 | ⟨h, hh, hrh⟩
        · exact Or.inl hr2
        · exact Or.inr ⟨mx, by simp, by
            rw [hrh]
            exact ((hsh mx.exchanges).mem_iff).mp hh⟩
      | false =>
        obtain ⟨h1, h2⟩ := ih acc2 (hfalse rfl) hosts heq
        refine ⟨h1, ?_⟩
        intro r hr
        rcases h2 r hr with hr2 | ⟨mx2, hmx2, hr3⟩
        · rcases hmem r hr2 with hr4 | ⟨h, hh, hrh⟩
          · exact Or.inl hr4
          · exact Or.inr ⟨mx, by simp, by
              rw [hrh]
              exact ((hsh mx.exchanges).mem_iff).mp hh⟩
        · exact Or.inr ⟨mx2, List.mem_cons_of_mem mx hmx2, hr3⟩
    · cases hhd : mx.exchanges.head? with
      | none =>
        simp only [toRemoteHostsLoop, hm, if_false, hhd] at heq
        obtain ⟨h1, h2⟩ := ih acc hlt hosts heq
        refine ⟨h1, ?_⟩
        intro r hr
        rcases h2 r hr with hr2 | ⟨mx2, hmx2, hr3⟩
        · exact Or.inl hr2
        · exact Or.inr ⟨mx2, List.mem_cons_of_mem mx hmx2, hr3⟩
      | some x =>
        simp only [toRemoteHostsLoop, hm, if_false, hhd] at heq
        by_cases hnull : (mx.preference == 0 && x == ".") = true
        · rw [if_pos hnull] at heq
          cases heq
        · rw [if_neg hnull] at heq
          have hxmem : x ∈ mx.exchanges := List.mem_of_mem_head? (by rw [hhd]; rfl)
          by_cases hmax : (acc ++ [RemoteHost.MX x]).length = max_mx
          · have hbeq : ((acc ++ [RemoteHost.MX x]).length == max_mx) = true := by
              simpa using hmax
            rw [hbeq, if_pos rfl] at heq
            simp only [Option.some.injEq] at heq
            subst heq
            refine ⟨Nat.le_of_eq hmax, ?_⟩
            intro r hr
            rcases List.mem_append.mp hr with hr2 | hr2
            · exact Or.inl hr2
            · simp only [List.mem_singleton] at hr2
              exact Or.inr ⟨mx, by simp, by rw [hr2]; exact hxmem⟩
          · have hbeq : ((acc ++ [RemoteHost.MX x]).length == max_mx) = false := by
              simpa using hmax
            rw [hbeq] at heq
            simp only [Bool.false_eq_true, if_false] at heq
            have hlt2 : (acc ++ [RemoteHost.MX x]).length < max_mx := by
              simp only [List.length_append, List.length_cons,
                List.length_nil] at hmax ⊢
              omega
            obtain ⟨h1, h2⟩ := ih (acc ++ [RemoteHost.MX x]) hlt2 hosts heq
            refine ⟨h1, ?_⟩
            intro r hr
            rcases h2 r hr with hr2 | ⟨mx2, hmx2, hr3⟩
            · rcases List.mem_append.mp hr2 with hr4 | hr4
              · exact Or.inl hr4
              · simp only [List.mem_singleton] at hr4
                exact Or.inr ⟨mx, by simp, by rw [hr4]; exact hxmem⟩
            · exact Or.inr ⟨mx2, List.mem_cons_of_mem mx hmx2, hr3⟩

lemma toRemoteHostsLoop_null (shuffle : List String → List String)
    (hlen : ∀ l : List String, (shuffle l).length = l.length)
    (max_mx : Nat) :
    ∀ (k : Nat) (mxs : List MXRecord) (acc : List RemoteHost),
      mxs.get? k = some ⟨["."], 0⟩ →
      acc.length + sumExchanges (mxs.take k) < max_mx →
      toRemoteHostsLoop shuffle mxs max_mx acc = none := by
  intro k
  induction k with
  | zero =>
    intro mxs acc hget hsum
    cases mxs with
    | nil => cases hget
    | cons mx rest =>
      simp only [List.get?] at hget
      injection hget with hmx
      subst hmx
      simp [toRemoteHostsLoop]
  | succ k ih =>
    intro mxs acc hget hsum
    cases mxs with
    | nil => cases hget
    | cons mx rest =>
      simp only [List.get?] at hget
      have hsum2 : acc.length + mx.exchanges.length +
          sumExchanges (List.take k rest) < max_mx := by
        simp only [List.take_succ_cons, sumExchanges, List.map_cons,
          List.sum_cons] at hsum ⊢
        omega
      by_cases hm : mx.exchanges.length > 1
      · have hpush := pushHostsUntilMax_nobreak max_mx (shuffle mx.exchanges) acc
          (by rw [hlen]; omega)
        have hstep : toRemoteHostsLoop shuffle (mx :: rest) max_mx acc =
            toRemoteHostsLoop shuffle rest max_mx
              (acc ++ (shuffle mx.exchanges).map RemoteHost.MX) := by
          simp only [toRemoteHostsLoop, hm, if_true, hpush]
        rw [hstep]
        apply ih rest _ hget
        have hl : (acc ++ (shuffle mx.exchanges).map RemoteHost.MX).length =
            acc.length + mx.exchanges.length := by
          simp [hlen]
        rw [hl]
        exact hsum2
      · cases hex : mx.exchanges with
        | nil =>
          have hstep : toRemoteHostsLoop shuffle (mx :: rest) max_mx acc =
              toRemoteHostsLoop shuffle rest max_mx acc := by
            simp [toRemoteHostsLoop, hex]
          rw [hstep]
          apply ih rest acc hget
          omega
        | cons x xs =>
          have hxs : xs = [] := by
            rw [hex] at hm
            simp only [List.length_cons, gt_iff_lt, not_lt] at hm
            cases xs with
            | nil => rfl
            | cons y ys => simp at hm
          subst hxs
          have hone : mx.exchanges.length = 1 := by rw [hex]; rfl
          by_cases hnull : (mx.preference == 0 && x == ".") = true
          · have hstep : toRemoteHostsLoop shuffle (mx :: rest) max_mx acc =
                none := by
              simp [toRemoteHostsLoop, hex, hnull]
            exact hstep
          · have hacc : ¬ acc.length + 1 = max_mx := by omega
            have hstep : toRemoteHostsLoop shuffle (mx :: rest) max_mx acc =
                toRemoteHostsLoop shuffle rest max_mx
                  (acc ++ [RemoteHost.MX x]) := by
              simp [toRemoteHostsLoop, hex, hnull, hacc]
            rw [hstep]
            apply ih rest _ hget
            simp only [List.length_append, List.length_cons, List.length_nil]
            omega

lemma bool_eq_imp_iff (a f : Bool) (h : f = true → a = true) :
    ((a == f) = true) ↔ (a = true → f = true) := by
  cases a <;> cases f <;> simp_all

lemma tlsaVerifyLoop_tail (env : CryptoEnv) (tlsa : Tlsa) :
    ∀ (rest : List (List Nat)) (pos : Nat) (mEE mInt : Bool),
      (∀ der ∈ rest, (env.parseSpki der).isSome) →
      tlsaVerifyLoop env tlsa rest (pos + 1) mEE mInt =
        some (mEE, mInt || rest.any (intermediateCertMatch env tlsa)) := by
  intro rest
  induction rest with
  | nil =>
    intro pos mEE mInt h
    simp [tlsaVerifyLoop]
  | cons der rest2 ih =>
    intro pos mEE mInt h
    have hder : (env.parseSpki der).isSome := h der (by simp)
    cases hspki : env.parseSpki der with
    | none => rw [hspki] at hder; cases hder
    | some spki =>
      have hint : intermediateCertMatch env tlsa der =
          tlsa.entries.any (fun e => recordMatches env e false der spki) := by
        simp [intermediateCertMatch, hspki]
      simp only [tlsaVerifyLoop, hspki]
      have hpos : ((pos + 1) == 0) = false := by simp
      rw [hpos]
      simp only [Bool.false_eq_true, if_false]
      cases hf : tlsa.entries.any (fun e => recordMatches env e false der spki) with
      | true =>
        rw [if_pos rfl]
        simp [List.any_cons, hint, hf]
      | false =>
        rw [if_neg (by simp)]
        rw [ih (pos + 1) mEE mInt (fun d hd => h d (List.mem_cons_of_mem der hd))]
        simp [List.any_cons, hint, hf]

lemma tlsaVerifyLoop_isSome (env : CryptoEnv) (tlsa : Tlsa) :
    ∀ (certs : List (List Nat)) (pos : Nat) (mEE mInt : Bool),
      (∀ der ∈ certs, (env.parseSpki der).isSome) →
      (tlsaVerifyLoop env tlsa certs pos mEE mInt).isSome := by
  intro certs
  induction certs with
  | nil => intro pos mEE mInt h; simp [tlsaVerifyLoop]
  | cons der rest ih =>
    intro pos mEE mInt h
    have hder : (env.parseSpki der).isSome := h der (by simp)
    cases hspki : env.parseSpki der with
    | none => rw [hspki] at hder; cases hder
    | some spki =>
      simp only [tlsaVerifyLoop, hspki]
      have hrest : ∀ d ∈ rest, (env.parseSpki d).isSome :=
        fun d hd => h d (List.mem_cons_of_mem der hd)
      by_cases hEE : (pos == 0) = true
      · rw [if_pos hEE]
        by_cases hb : (tlsa.entries.any
            (fun e => recordMatches env e (pos == 0) der spki) &&
            !tlsa.has_intermediates) = true
        · rw [if_pos hb]; rfl
        · rw [if_neg hb]; exact ih (pos + 1) _ _ hrest
      · rw [if_neg hEE]
        by_cases hb : (tlsa.entries.any
            (fun e => recordMatches env e (pos == 0) der spki)) = true
        · rw [if_pos hb]; rfl
        · rw [if_neg hb]; exact ih (pos + 1) _ _ hrest

lemma any_recordMatches_end_entity (env : CryptoEnv) (tlsa : Tlsa)
    (der spki : List Nat)
    (h : tlsa.entries.any (fun e => recordMatches env e true der spki) = true) :
    tlsa.entries.any (fun e => e.is_end_entity) = true := by
  rcases List.any_eq_true.mp h with ⟨e, he, hm⟩
  refine List.any_eq_true.mpr ⟨e, he, ?_⟩
  simp only [recordMatches, Bool.and_eq_true, beq_iff_eq] at hm
  simp [hm.1]

lemma any_intermediateCertMatch_flag (env : CryptoEnv) (tlsa : Tlsa)
    (rest : List (List Nat))
    (h : rest.any (intermediateCertMatch env tlsa) = true) :
    tlsa.entries.any (fun e => !e.is_end_entity) = true := by
  rcases List.any_eq_true.mp h with ⟨der, hder, hm⟩
  cases hspki : env.parseSpki der with
  | none => rw [intermediateCertMatch, hspki] at hm; cases hm
  | some spki =>
    rw [intermediateCertMatch, hspki] at hm
    rcases List.any_eq_true.mp hm with ⟨e, he, hrec⟩
    refine List.any_eq_true.mpr ⟨e, he, ?_⟩
    simp only [recordMatches, Bool.and_eq_true, beq_iff_eq] at hrec
    simp [hrec.1]

lemma tlsa_verify_ok_characterization (env : CryptoEnv) (tlsa : Tlsa)
    (hostname : String) (certs : List (List Nat))
    (hwf : tlsa.wf)
    (hparse : ∀ der ∈ certs, (env.parseSpki der).isSome) :
    Tlsa.verify env tlsa hostname (some certs) = Except.ok () ↔
      ((tlsa.has_end_entities = true →
          specEndEntityMatched env tlsa certs = true) ∧
       (tlsa.has_intermediates = true →
          specIntermediateMatched env tlsa certs = true)) := by
  rcases hwf with ⟨hwfEE, hwfInt⟩
  cases certs with
  | nil =>
    cases hEE : tlsa.has_end_entities <;> cases hInt : tlsa.has_intermediates <;>
      simp [Tlsa.verify, tlsaVerifyLoop, specEndEntityMatched,
        specIntermediateMatched, hEE, hInt]
  | cons der rest =>
    have hder : (env.parseSpki der).isSome := hparse der (by simp)
    cases hspki : env.parseSpki der with
    | none => rw [hspki] at hder; cases hder
    | some spki =>
      have hrest : ∀ d ∈ rest, (env.parseSpki d).isSome :=
        fun d hd => hparse d (List.mem_cons_of_mem der hd)
      have hspecEE : specEndEntityMatched env tlsa (der :: rest) =
          tlsa.entries.any (fun e => recordMatches env e true der spki) := by
        simp [specEndEntityMatched, hspki]
      have hspecInt : specIntermediateMatched env tlsa (der :: rest) =
          rest.any (intermediateCertMatch env tlsa) := by
        simp [specIntermediateMatched]
      have hEEimp :
          tlsa.entries.any (fun e => recordMatches env e true der spki) = true →
          tlsa.has_end_entities = true := by
        intro hf
        rw [hwfEE]
        exact any_recordMatches_end_entity env tlsa der spki hf
      have hIntimp : rest.any (intermediateCertMatch env tlsa) = true →
          tlsa.has_intermediates = true := by
        intro hf
        rw [hwfInt]
        exact any_intermediateCertMatch_flag env tlsa rest hf
      by_cases hbreak :
          tlsa.entries.any (fun e => recordMatches env e true der spki) = true ∧
          tlsa.has_intermediates = false
      · have hloop : tlsaVerifyLoop env tlsa (der :: rest) 0 false false =
            some (true, false) := by
          simp only [tlsaVerifyLoop, hspki,
            show ((0 : Nat) == 0) = true from rfl]
          rw [if_pos trivial, if_pos (by simp [hbreak.1, hbreak.2])]
        rw [hspecEE, hspecInt]
        simp only [Tlsa.verify, hloop]
        constructor
        · intro _
          refine ⟨fun _ => hbreak.1, fun hi => ?_⟩
          rw [hbreak.2] at hi
          cases hi
        · intro _
          rw [hEEimp hbreak.1, hbreak.2]
          simp
      · have hloop : tlsaVerifyLoop env tlsa (der :: rest) 0 false false =
            some (tlsa.entries.any (fun e => recordMatches env e true der spki),
              rest.any (intermediateCertMatch env tlsa)) := by
          simp only [tlsaVerifyLoop, hspki,
            show ((0 : Nat) == 0) = true from rfl]
          rw [if_pos trivial]
          cases hf : tlsa.entries.any (fun e => recordMatches env e true der spki) with
          | true =>
            have hInt : tlsa.has_intermediates = true := by
              cases hInt : tlsa.has_intermediates with
              | true => rfl
              | false => exact absurd ⟨hf, hInt⟩ hbreak
            rw [if_neg (by simp [hf, hInt])]
            rw [tlsaVerifyLoop_tail env tlsa rest 0 (false || true) false hrest]
            simp
          | false =>
            rw [if_neg (by simp [hf])]
            rw [tlsaVerifyLoop_tail env tlsa rest 0 (false || false) false hrest]
            simp
        rw [hspecEE, hspecInt]
        simp only [Tlsa.verify, hloop]
        have hiff := bool_eq_imp_iff tlsa.has_end_entities
          (tlsa.entries.any (fun e => recordMatches env e true der spki)) hEEimp
        have hiff2 := bool_eq_imp_iff tlsa.has_intermediates
          (rest.any (intermediateCertMatch env tlsa)) hIntimp
        by_cases hc : (tlsa.has_end_entities ==
            tlsa.entries.any (fun e => recordMatches env e true der spki) &&
            tlsa.has_intermediates ==
            rest.any (intermediateCertMatch env tlsa)) = true
        · rw [if_pos hc]
          rw [Bool.and_eq_true] at hc
          rcases hc with ⟨hc1, hc2⟩
          simp only [true_iff]
          exact ⟨(hiff.mp hc1), (hiff2.mp hc2)⟩
        · rw [if_neg hc]
          constructor
          · intro habs
            cases habs
          · intro hr
            exact absurd ((Bool.and_eq_true _ _).symm ▸
              (⟨hiff.mpr hr.1, hiff2.mpr hr.2⟩ :
                _ = true ∧ _ = true)) hc

lemma toRemoteHostsLoop_none_has_null (shuffle : List String → List String)
    (max_mx : Nat) :
    ∀ (mxs : List MXRecord) (acc : List RemoteHost),
      toRemoteHostsLoop shuffle mxs max_mx acc = none →
      ∃ mx ∈ mxs, mx.preference = 0 ∧ mx.exchanges = ["."] := by
  intro mxs
  induction mxs with
  | nil =>
    intro acc h
    simp [toRemoteHostsLoop] at h
  | cons mx rest ih =>
    intro acc h
    by_cases hm : mx.exchanges.length > 1
    · rcases hb : pushHostsUntilMax (shuffle mx.exchanges) max_mx acc with
        ⟨acc2, b⟩
      simp only [toRemoteHostsLoop, hm, if_true, hb] at h
      cases b with
      | true => cases h
      | false =>
        rcases ih acc2 h with ⟨mx2, hmem, hnull⟩
        exact ⟨mx2, List.mem_cons_of_mem mx hmem, hnull⟩
    · cases hhd : mx.exchanges.head? with
      | none =>
        simp only [toRemoteHostsLoop, hm, if_false, hhd] at h
        rcases ih acc h with ⟨mx2, hmem, hnull⟩
        exact ⟨mx2, List.mem_cons_of_mem mx hmem, hnull⟩
      | some x =>
        simp only [toRemoteHostsLoop, hm, if_false, hhd] at h
        by_cases hnull : (mx.preference == 0 && x == ".") = true
        · have hx : mx.exchanges = [x] := by
            cases hex : mx.exchanges with
            | nil => rw [hex] at hhd; cases hhd
            | cons y ys =>
              rw [hex] at hhd hm
              simp only [List.head?] at hhd
              injection hhd with hxy
              subst hxy
              cases ys with
              | nil => rfl
              | cons z zs => simp at hm
          rw [Bool.and_eq_true] at hnull
          refine ⟨mx, by simp, ?_, ?_⟩
          · simpa using hnull.1
          · rw [hx]
            have hxd : x = "." := by simpa using hnull.2
            rw [hxd]
        · rw [if_neg hnull] at h
          by_cases hmax : ((acc ++ [RemoteHost.MX x]).length == max_mx) = true
          · rw [hmax, if_pos rfl] at h
            cases h
          · have hmax2 : ((acc ++ [RemoteHost.MX x]).length == max_mx) =
                false := by
              cases hc : (acc ++ [RemoteHost.MX x]).length == max_mx with
              | true => exact absurd hc hmax
              | false => rfl
            rw [hmax2] at h
            simp only [Bool.false_eq_true, if_false] at h
            rcases ih (acc ++ [RemoteHost.MX x]) h with ⟨mx2, hmem, hnull2⟩
            exact ⟨mx2, List.mem_cons_of_mem mx hmem, hnull2⟩

/-- C7: for all `Schedule<T>` values `a` and `b`, the comparison order is
the inverse of the order on due instants: `a` compares greater than `b`
exactly when `a.due` is earlier than `b.due`, and `a` equals `b` exactly
when the due instants are equal, so the earliest-due schedule is the
maximum element of a priority queue. -/
theorem schedule_ord_is_inverted_due_order :
    ∀ (T : Type) (a b : Schedule T),
      (Schedule.cmp a b = Ordering.gt ↔ a.due < b.due) ∧
      (Schedule.cmp a b = Ordering.lt ↔ b.due < a.due) ∧
      (Schedule.cmp a b = Ordering.eq ↔ a.due = b.due) ∧
      (Schedule.beq a b = true ↔ a.due = b.due) := by
  intro T a b
  refine ⟨?_, ?_, ?_, ?_⟩
  · simpa [Schedule.cmp] using Nat.compare_eq_gt (a := b.due) (b := a.due)
  · simpa [Schedule.cmp] using Nat.compare_eq_lt (a := b.due) (b := a.due)
  · simp only [Schedule.cmp, Nat.compare_eq_eq]
    exact eq_comm
  · simpa [Schedule.beq] using Nat.beq_eq (x := a.due) (y := b.due)

/-- C6: `Domain::set_throttle_error` with a concurrency-type error pushes
the limiter onto the on-hold list and sets the status to
`TemporaryFailure(ConcurrencyLimited)` leaving the retry schedule
untouched; a rate-type error sets `retry.due` to the error's `retry_at`
and the status to `TemporaryFailure(RateLimited)`; both set the changed
flag.  The function's outputs are only the updated domain and on-hold
list - no peer-visible response is produced. -/
theorem domain_set_throttle_error_spec :
    ∀ (d : Domain) (on_hold : List ConcurrencyLimiter),
      (∀ limiter : ConcurrencyLimiter,
        d.set_throttle_error (ThrottleError.Concurrency limiter) on_hold =
          ({ d with
              status := Status.TemporaryFailure Error.ConcurrencyLimited,
              changed := true },
            on_hold ++ [limiter])) ∧
      (∀ retry_at : Nat,
        d.set_throttle_error (ThrottleError.Rate retry_at) on_hold =
          ({ d with
              retry := { d.retry with due := retry_at },
              status := Status.TemporaryFailure Error.RateLimited,
              changed := true },
            on_hold)) := by
  intro d on_hold
  exact ⟨fun limiter => rfl, fun retry_at => rfl⟩

/-- C1: for every well-formed TLSA record set (bucket flags consistent
with the entries, as the lookup code that builds a `Tlsa` guarantees) and
every presented chain `Some(certs)` in which every certificate parses,
`Tlsa::verify` returns Ok iff every declared bucket has at least one
match: if end-entity records are declared, some end-entity record's data
equals the selected hash of the chain's first certificate, and if
intermediate records are declared, some intermediate record likewise
matches some later certificate of the chain. -/
theorem tlsa_verify_ok_iff (env : CryptoEnv) (tlsa : Tlsa)
    (hostname : String) (certs : List (List Nat))
    (hwf : tlsa.wf)
    (hparse : ∀ der ∈ certs, (env.parseSpki der).isSome) :
    Tlsa.verify env tlsa hostname (some certs) = Except.ok () ↔
      ((tlsa.has_end_entities = true →
          specEndEntityMatched env tlsa certs = true) ∧
       (tlsa.has_intermediates = true →
          specIntermediateMatched env tlsa certs = true)) :=
  tlsa_verify_ok_characterization env tlsa hostname certs hwf hparse

/-- C1 witness: the theorem applied to a one-record, one-certificate
instance where the end-entity bucket matches. -/
theorem tlsa_verify_ok_iff_witness :
    Tlsa.verify demoCryptoEnv ⟨[⟨true, true, true, [5]⟩], true, false⟩
      "mx.example.org" (some [[5]]) = Except.ok () :=
  (tlsa_verify_ok_iff demoCryptoEnv ⟨[⟨true, true, true, [5]⟩], true, false⟩
    "mx.example.org" [[5]] (by exact ⟨rfl, rfl⟩) (by decide)).mpr (by decide)

/-- C2 counterexample: the claim states that `Tlsa::verify` returns
`TemporaryFailure(DaneError)` whenever a presented certificate fails
X.509 parsing.  When the end-entity certificate matches and no
intermediate records are declared, the loop breaks before reaching the
unparseable second certificate and verification succeeds: here
certificate `[2]` does not parse, yet the result is `Ok`. -/
theorem tlsa_verify_parse_failure_skipped :
    Tlsa.verify strictCryptoEnv ⟨[⟨true, true, true, [1]⟩], true, false⟩
        "mx.example.org" (some [[1], [2]]) = Except.ok () ∧
    strictCryptoEnv.parseSpki [2] = none := by
  exact ⟨by decide, by decide⟩

/-- C2 amended: `verify` returns the no-certificates
`TemporaryFailure(DaneError)` when the argument is `None`; on
`Some(certs)` only three results are possible - Ok, the parse-failure
`TemporaryFailure(DaneError)`, and the no-match
`PermanentFailure(DaneError)`; when every certificate parses the
parse-failure result is impossible (a parse failure only fails
verification if the scan reaches the offending certificate); and when
certificates are present and all parse but some declared bucket of a
well-formed record set has no match, the result is the no-match
`PermanentFailure(DaneError)`. -/
theorem tlsa_verify_error_classification (env : CryptoEnv) (tlsa : Tlsa)
    (hostname : String) :
    (Tlsa.verify env tlsa hostname none =
      Except.error (Status.TemporaryFailure (Error.DaneError
        ⟨hostname, "No certificates were provided by host"⟩))) ∧
    (∀ certs : List (List Nat),
      Tlsa.verify env tlsa hostname (some certs) = Except.ok () ∨
      Tlsa.verify env tlsa hostname (some certs) =
        Except.error (Status.TemporaryFailure (Error.DaneError
          ⟨hostname, "Failed to parse X.509 certificate"⟩)) ∨
      Tlsa.verify env tlsa hostname (some certs) =
        Except.error (Status.PermanentFailure (Error.DaneError
          ⟨hostname, "No matching certificates found in TLSA records"⟩))) ∧
    (∀ certs : List (List Nat),
      (∀ der ∈ certs, (env.parseSpki der).isSome) →
      Tlsa.verify env tlsa hostname (some certs) ≠
        Except.error (Status.TemporaryFailure (Error.DaneError
          ⟨hostname, "Failed to parse X.509 certificate"⟩))) ∧
    (∀ certs : List (List Nat),
      tlsa.wf →
      (∀ der ∈ certs, (env.parseSpki der).isSome) →
      ¬((tlsa.has_end_entities = true →
            specEndEntityMatched env tlsa certs = true) ∧
        (tlsa.has_intermediates = true →
            specIntermediateMatched env tlsa certs = true)) →
      Tlsa.verify env tlsa hostname (some certs) =
        Except.error (Status.PermanentFailure (Error.DaneError
          ⟨hostname, "No matching certificates found in TLSA records"⟩))) := by
  have hclass : ∀ certs : List (List Nat),
      Tlsa.verify env tlsa hostname (some certs) = Except.ok () ∨
      Tlsa.verify env tlsa hostname (some certs) =
        Except.error (Status.TemporaryFailure (Error.DaneError
          ⟨hostname, "Failed to parse X.509 certificate"⟩)) ∨
      Tlsa.verify env tlsa hostname (some certs) =
        Except.error (Status.PermanentFailure (Error.DaneError
          ⟨hostname, "No matching certificates found in TLSA records"⟩)) := by
    intro certs
    cases hl : tlsaVerifyLoop env tlsa certs 0 false false with
    | none =>
      right; left
      simp [Tlsa.verify, hl]
    | some p =>
      rcases p with ⟨mEE, mInt⟩
      by_cases hc : (tlsa.has_end_entities == mEE &&
          tlsa.has_intermediates == mInt) = true
      · left
        simp [Tlsa.verify, hl, hc]
      · right; right
        simp [Tlsa.verify, hl, hc]
  have hnoparse : ∀ certs : List (List Nat),
      (∀ der ∈ certs, (env.parseSpki der).isSome) →
      Tlsa.verify env tlsa hostname (some certs) ≠
        Except.error (Status.TemporaryFailure (Error.DaneError
          ⟨hostname, "Failed to parse X.509 certificate"⟩)) := by
    intro certs hp heq
    have hsome := tlsaVerifyLoop_isSome env tlsa certs 0 false false hp
    cases hl : tlsaVerifyLoop env tlsa certs 0 false false with
    | none => rw [hl] at hsome; cases hsome
    | some p =>
      rcases p with ⟨mEE, mInt⟩
      by_cases hc : (tlsa.has_end_entities == mEE &&
          tlsa.has_intermediates == mInt) = true
      · rw [Tlsa.verify.eq_def] at heq
        simp only [hl, hc, if_true] at heq
        cases heq
      · rw [Tlsa.verify.eq_def] at heq
        simp only [hl, hc, Bool.false_eq_true, if_false] at heq
        simp at heq
  refine ⟨rfl, hclass, hnoparse, ?_⟩
  intro certs hwf hp hnc
  rcases hclass certs with h | h | h
  · exact absurd ((tlsa_verify_ok_characterization env tlsa hostname
      certs hwf hp).mp h) hnc
  · exact absurd h (hnoparse certs hp)
  · exact h

/-- C2 witness: the amended theorem applied to a record set declaring an
intermediate bucket that an empty chain cannot match: the result is the
no-match `PermanentFailure`. -/
theorem tlsa_verify_error_classification_witness :
    Tlsa.verify demoCryptoEnv ⟨[⟨false, true, true, [7]⟩], false, true⟩
        "mx.example.org" (some []) =
      Except.error (Status.PermanentFailure (Error.DaneError
        ⟨"mx.example.org",
          "No matching certificates found in TLSA records"⟩)) :=
  (tlsa_verify_error_classification demoCryptoEnv
    ⟨[⟨false, true, true, [7]⟩], false, true⟩ "mx.example.org").2.2.2
    [] (by exact ⟨rfl, rfl⟩) (by decide) (by decide)

/-- C3 counterexample: the claim states that `to_remote_hosts` returns
`None` on every list containing a null-MX record (preference 0, single
exchange ".").  With `max_mx = 1` and the null-MX listed second, the loop
collects `max_mx` hosts from the first record and breaks before the
null-MX check is reached, returning `Some ["mx1"]` although a null-MX
record is present. -/
theorem to_remote_hosts_nullmx_skipped :
    to_remote_hosts (fun l => l)
        [⟨["mx1"], 10⟩, ⟨["."], 0⟩] "example.org" 1 =
      some [RemoteHost.MX "mx1"] ∧
    (⟨["."], 0⟩ : MXRecord) ∈
      [(⟨["mx1"], 10⟩ : MXRecord), ⟨["."], 0⟩] := by
  exact ⟨by decide, by decide⟩

/-- C3 amended: for every shuffle that permutes its input and every
`max_mx > 0`: an empty MX list yields exactly the implicit MX (the domain
itself); a null-MX record is answered with `None` provided it is reached
before `max_mx` hosts have been collected (the exchanges preceding it
number fewer than `max_mx` - the unamended claim fails when the loop
breaks first); any `Some` result for a non-empty list holds at most
`max_mx` hosts, each an exchange drawn from the input records; and a
list without any null-MX record always yields a `Some` result (the only
`None` exit of the loop is the null-MX return, so the original claim's
Some guarantee survives untouched). -/
theorem to_remote_hosts_amended (shuffle : List String → List String)
    (domain : String) (max_mx : Nat)
    (hsh : ∀ l : List String, (shuffle l).Perm l) (hpos : 0 < max_mx) :
    (to_remote_hosts shuffle [] domain max_mx =
      some [RemoteHost.MX domain]) ∧
    (∀ (mxs : List MXRecord) (k : Nat),
      mxs.get? k = some ⟨["."], 0⟩ →
      sumExchanges (mxs.take k) < max_mx →
      to_remote_hosts shuffle mxs domain max_mx = none) ∧
    (∀ (mxs : List MXRecord) (hosts : List RemoteHost),
      mxs ≠ [] →
      to_remote_hosts shuffle mxs domain max_mx = some hosts →
      hosts.length ≤ max_mx ∧
      ∀ r ∈ hosts, ∃ mx ∈ mxs, r.name ∈ mx.exchanges) ∧
    (∀ mxs : List MXRecord,
      (∀ mx ∈ mxs, ¬(mx.preference = 0 ∧ mx.exchanges = ["."])) →
      ∃ hosts, to_remote_hosts shuffle mxs domain max_mx = some hosts) := by
  refine ⟨by simp [to_remote_hosts], ?_, ?_, ?_⟩
  · intro mxs k hget hsum
    have hne : mxs ≠ [] := by
      intro h
      rw [h] at hget
      cases hget
    have hloop := toRemoteHostsLoop_null shuffle
      (fun l => (hsh l).length_eq) max_mx k mxs [] hget
      (by simpa using hsum)
    simpa [to_remote_hosts, hne] using hloop
  · intro mxs hosts hne heq
    have hloop : toRemoteHostsLoop shuffle mxs max_mx [] = some hosts := by
      simpa [to_remote_hosts, hne] using heq
    obtain ⟨h1, h2⟩ := toRemoteHostsLoop_spec shuffle hsh max_mx mxs []
      (by simpa using hpos) hosts hloop
    refine ⟨h1, ?_⟩
    intro r hr
    rcases h2 r hr with hr2 | hr3
    · cases hr2
    · exact hr3
  · intro mxs hno
    by_cases hne : mxs = []
    · subst hne
      exact ⟨[RemoteHost.MX domain], by simp [to_remote_hosts]⟩
    · cases hres : toRemoteHostsLoop shuffle mxs max_mx [] with
      | some hosts =>
        exact ⟨hosts, by simpa [to_remote_hosts, hne] using hres⟩
      | none =>
        rcases toRemoteHostsLoop_none_has_null shuffle max_mx mxs [] hres with
          ⟨mx, hmem, hnull⟩
        exact absurd hnull (hno mx hmem)

/-- C3 witness: the amended theorem applied at concrete inputs - a
leading null-MX record yields `None`. -/
theorem to_remote_hosts_amended_witness :
    to_remote_hosts (fun l => l) [⟨["."], 0⟩] "example.org" 2 = none := by
  exact (to_remote_hosts_amended (fun l => l) "example.org" 2
    (fun l => List.Perm.refl l) (by decide)).2.1
    [⟨["."], 0⟩] 0 (by decide) (by decide)

/-- C5: the claim states that a positive integer followed by one of the
suffixes d/h/m/s/ms parses into the corresponding duration.  The code
uppercases the trimmed value and then tries to strip the lower-case unit
letters as a string PREFIX, so a suffixed value such as `"1d"` becomes
`"1D"`, no unit is recognised, the integer parse of `"1D"` fails and the
function returns an error - while the repository's own tests feed
`'100ms'`, `'1d'`, `'30m'` through this parser and expect them to
succeed.  This theorem evaluates the code at the failing input `"1d"`:
the spec demands one day (86 400 000 ms), the code errors out. -/
theorem duration_parse_value_rejects_suffixed_input :
    durationParseValue "test" "1d" =
      Except.error "Invalid duration value \"1d\" for property \"test\"." ∧
    specDurationOfSuffix 1 "d" = some ⟨86400000⟩ := by
  exact ⟨rfl, by decide⟩

/-- C4: the claim (and the spec) require AUTH over a session not
protected by TLS to be rejected unless the configured mechanism set
explicitly permits plaintext authentication.  The dispatch code never
consults the TLS state - the source marks this with `TODO no plain auth
over plaintext` (session.rs line 76) and its own test expects EHLO to
withhold AUTH without TLS.  This theorem evaluates the code: the
decision is identical with and without TLS, and at the failing input (a
plaintext session with PLAIN configured and a lookup present) the
command proceeds into the SASL exchange instead of being rejected. -/
theorem auth_dispatch_ignores_tls_state :
    (∀ (params_auth : Nat) (has_auth_lookup : Bool)
       (authenticated_as : String) (mechanism : Nat),
      authRequestDecision false params_auth has_auth_lookup
          authenticated_as mechanism =
        authRequestDecision true params_auth has_auth_lookup
          authenticated_as mechanism) ∧
    authRequestDecision false AUTH_PLAIN true "" AUTH_PLAIN =
      AuthDecision.proceedSasl AUTH_PLAIN := by
  exact ⟨fun _ _ _ _ => rfl, by decide⟩

/-- C8: when the accumulated message size would exceed the configured
maximum: the `State::Data` arm switches to `DataTooLarge`; the
`Request::Bdat` arm likewise drains the oversize chunk in `DataTooLarge`;
and the `DataTooLarge` state keeps draining until the payload is
consumed, then discards the buffered message bytes and replies
`552 5.3.4`. -/
theorem oversize_message_is_drained_and_rejected :
    ∀ (data_max_message_size msg_len bytes_len chunk_size : Nat)
      (receiver_done : Bool) (message : List Nat),
      (data_max_message_size < msg_len + bytes_len →
        dataStateArm data_max_message_size msg_len bytes_len
          receiver_done = DataArmResult.tooLarge) ∧
      (data_max_message_size < chunk_size + msg_len →
        bdatRequestArm data_max_message_size msg_len chunk_size =
          BdatArmResult.tooLarge) ∧
      (dataTooLargeArm message false = (message, none, false)) ∧
      (dataTooLargeArm message true =
        ([], some "552 5.3.4 Message too big for system.\r\n", true)) := by
  intro mx ml bl cs done msg
  refine ⟨?_, ?_, rfl, rfl⟩
  · intro h
    rw [dataStateArm, if_neg (by omega)]
  · intro h
    rw [bdatRequestArm, if_neg (by omega)]

/-- C8 witness: the theorem applied at a concrete oversize input. -/
theorem oversize_message_is_drained_and_rejected_witness :
    dataStateArm 10 8 5 false = DataArmResult.tooLarge ∧
    bdatRequestArm 10 2 9 = BdatArmResult.tooLarge := by
  exact ⟨(oversize_message_is_drained_and_rejected 10 8 5 9 false []).1
      (by decide),
    (oversize_message_is_drained_and_rejected 10 2 0 9 false []).2.1
      (by decide)⟩

lemma rcptErrorStep_rcptTo (p : RcptParams) (d : RcptSessionData)
    (response : String) : (rcptErrorStep p d response).rcpt_to = d.rcpt_to := by
  unfold rcptErrorStep
  simp only []
  split <;> rfl

lemma rcptQueuePhase_shape (p : RcptParams) (d : RcptSessionData)
    (rcpt : SessionAddress) :
    (rcptQueuePhase p d rcpt).rcpt_to = d.rcpt_to ∨
    ((rcptQueuePhase p d rcpt).rcpt_to = d.rcpt_to ++ [rcpt] ∧
      d.rcpt_to.any (fun r => SessionAddress.beqAddr r rcpt) = false) := by
  unfold rcptQueuePhase
  cases hany : d.rcpt_to.any (fun r => SessionAddress.beqAddr r rcpt) with
  | true => simp [hany]
  | false =>
    simp only [hany, Bool.not_false, if_true]
    cases hs : p.has_rcpt_script with
    | true =>
      cases hr : p.script_result with
      | reject m => simp
      | accept => cases ht : p.throttle_allowed <;> simp [ht]
      | replace => cases ht : p.throttle_allowed <;> simp [ht]
    | false => cases ht : p.throttle_allowed <;> simp [ht]

lemma handle_rcpt_to_shape (p : RcptParams) (d : RcptSessionData)
    (to_address : String) (to_flags : Nat) (to_orcpt : Option String) :
    (handle_rcpt_to p d to_address to_flags to_orcpt).rcpt_to = d.rcpt_to ∨
    ∃ r, (handle_rcpt_to p d to_address to_flags to_orcpt).rcpt_to =
        d.rcpt_to ++ [r] ∧
      d.rcpt_to.any (fun x => SessionAddress.beqAddr x r) = false := by
  unfold handle_rcpt_to
  simp only []
  repeat' split
  all_goals first
    | exact Or.inl rfl
    | exact Or.inl (rcptErrorStep_rcptTo _ _ _)
    | exact (rcptQueuePhase_shape _ _ _).elim Or.inl (fun h => Or.inr ⟨_, h⟩)

lemma pairwise_beqAddr_append (l : List SessionAddress)
    (r : SessionAddress)
    (hp : List.Pairwise (fun a b => SessionAddress.beqAddr a b = false) l)
    (hr : l.any (fun x => SessionAddress.beqAddr x r) = false) :
    List.Pairwise (fun a b => SessionAddress.beqAddr a b = false)
      (l ++ [r]) := by
  rw [List.pairwise_append]
  refine ⟨hp, List.pairwise_singleton _ _, ?_⟩
  intro a ha b hb
  simp only [List.mem_singleton] at hb
  subst hb
  have hall := List.any_eq_false.mp hr
  have := hall a ha
  simpa using this

/-- C9 counterexample: the claim states that a second RCPT for an
address already in the recipient list always replies `250 2.1.5 OK`.
But the `rcpt_max` bound is checked before the duplicate check
(rcpt.rs line 47): with `rcpt_max = 1` and the address already
accepted, the same RCPT gets `451 4.5.3 Too many recipients.` instead
of 250. -/
theorem rcpt_duplicate_hits_rcpt_max_first :
    handle_rcpt_to
        ⟨1, true, true, 3, false, fun _ => none, fun _ => none, false,
          ScriptResult.accept, true⟩
        ⟨true, [⟨"bill@foobar.org", "bill@foobar.org", "foobar.org", 0,
          none⟩], 0⟩
        "bill@foobar.org" 0 none =
      ⟨[⟨"bill@foobar.org", "bill@foobar.org", "foobar.org", 0, none⟩],
        0, ["451 4.5.3 Too many recipients.\r\n"], false, false, false⟩ ∧
    ([⟨"bill@foobar.org", "bill@foobar.org", "foobar.org", 0,
        none⟩] : List SessionAddress).any
      (fun r => r.address_lcase == toLowercaseStr "bill@foobar.org") =
        true := by
  exact ⟨by decide, by decide⟩

/-- C9 amended: provided the command passes the checks that precede the
duplicate test (MAIL FROM accepted, recipient count below `rcpt_max`,
DSN parameters acceptable, address verification falling through), a
second RCPT for an address already in the list replies `250 2.1.5 OK`
without appending a duplicate, without running the RCPT Sieve script and
without consulting the throttle; and `handle_rcpt_to` preserves
pairwise distinctness of the recipient list, so the list never contains
two equal addresses. -/
theorem rcpt_duplicate_handling (p : RcptParams) (d : RcptSessionData)
    (to_address : String) (to_flags : Nat) (to_orcpt : Option String) :
    (d.mail_from_present = true →
     d.rcpt_to.length < p.rcpt_max →
     ((Nat.land to_flags RCPT_NOTIFY_MASK != 0 || to_orcpt.isSome) &&
        !p.rcpt_dsn) = false →
     rcptVerificationPasses p (domainPart (toLowercaseStr to_address))
       (toLowercaseStr to_address) →
     d.rcpt_to.any
       (fun r => r.address_lcase == toLowercaseStr to_address) = true →
     handle_rcpt_to p d to_address to_flags to_orcpt =
       ⟨d.rcpt_to, d.rcpt_errors, ["250 2.1.5 OK\r\n"],
         false, false, false⟩) ∧
    (List.Pairwise (fun a b => SessionAddress.beqAddr a b = false)
        d.rcpt_to →
     List.Pairwise (fun a b => SessionAddress.beqAddr a b = false)
       (handle_rcpt_to p d to_address to_flags to_orcpt).rcpt_to) := by
  constructor
  · intro hmail hmax hdsn hver hdup
    have hdup2 : d.rcpt_to.any (fun r => SessionAddress.beqAddr r
        ⟨to_address, toLowercaseStr to_address,
          domainPart (toLowercaseStr to_address), to_flags, to_orcpt⟩) =
        true := by
      simpa [SessionAddress.beqAddr] using hdup
    have hq : rcptQueuePhase p d
        ⟨to_address, toLowercaseStr to_address,
          domainPart (toLowercaseStr to_address), to_flags, to_orcpt⟩ =
        ⟨d.rcpt_to, d.rcpt_errors, ["250 2.1.5 OK\r\n"],
          false, false, false⟩ := by
      unfold rcptQueuePhase
      rw [hdup2]
      simp
    unfold handle_rcpt_to
    rw [if_neg (by simp [hmail]), if_neg (by omega), if_neg (by simp [hdsn])]
    rcases hver with ⟨hl, hdl, hal⟩ | ⟨hl, hdl, hrel⟩ | ⟨hl, hrel⟩
    · simp only [hl, if_true, hdl, hal]
      exact hq
    · simp only [hl, if_true, hdl, hrel, Bool.not_true,
        Bool.false_eq_true, if_false]
      exact hq
    · simp only [hl, Bool.false_eq_true, if_false, hrel, Bool.not_true]
      exact hq
  · intro hp
    rcases handle_rcpt_to_shape p d to_address to_flags to_orcpt with
      h | ⟨r, h, hany⟩
    · rw [h]; exact hp
    · rw [h]; exact pairwise_beqAddr_append d.rcpt_to r hp hany

/-- C9 witness: the amended fast path applied at a concrete duplicate
RCPT: the reply is 250 and the list is unchanged. -/
theorem rcpt_duplicate_handling_witness :
    handle_rcpt_to
        ⟨10, true, true, 3, false, fun _ => none, fun _ => none, false,
          ScriptResult.accept, true⟩
        ⟨true, [⟨"bill@foobar.org", "bill@foobar.org", "foobar.org", 0,
          none⟩], 0⟩
        "Bill@foobar.org" 0 none =
      ⟨[⟨"bill@foobar.org", "bill@foobar.org", "foobar.org", 0, none⟩],
        0, ["250 2.1.5 OK\r\n"], false, false, false⟩ :=
  (rcpt_duplicate_handling
      ⟨10, true, true, 3, false, fun _ => none, fun _ => none, false,
        ScriptResult.accept, true⟩
      ⟨true, [⟨"bill@foobar.org", "bill@foobar.org", "foobar.org", 0,
        none⟩], 0⟩
      "Bill@foobar.org" 0 none).1
    (by decide) (by decide) (by decide)
    (Or.inr (Or.inr ⟨rfl, rfl⟩)) (by decide)

/-- C10: every management request whose Authorization header does not
carry Basic credentials accepted by the management lookup (including the
case of no header at all) receives a 401 Unauthorized response with the
`WWW-Authenticate: Basic` header and an empty body, and no queue or
report control command is dispatched for it. -/
theorem management_unauthorized_401 (env : MgmtEnv) (req : HttpRequest)
    (hauth : managementAuthenticated env req.auth_header = false) :
    parse_request env req =
      (⟨401, true, false, none⟩, none) := by
  simp [parse_request, hauth]

/-- C10 witness: the theorem applied to a request with no Authorization
header against a concrete environment. -/
theorem management_unauthorized_401_witness :
    parse_request
        ⟨fun _ => none, fun _ _ => none, fun _ => none, 0,
          fun _ => (200, ""), fun _ => (200, "")⟩
        ⟨true, "/queue/list", none, none⟩ =
      (⟨401, true, false, none⟩, none) :=
  management_unauthorized_401
    ⟨fun _ => none, fun _ _ => none, fun _ => none, 0,
      fun _ => (200, ""), fun _ => (200, "")⟩
    ⟨true, "/queue/list", none, none⟩ rfl

end SMTPSpec
